import Mathlib

/-!
Verification development for the AWS Secrets Manager keystore adapter
(`internal/keystore/aws/secrets-manager.go`).

The adapter is embedded shallowly:
* pure configuration/endpoint/credential wiring of `Connect` becomes pure
  functions;
* the error-translation code that each operation applies to a failed vendor
  call becomes a pure function from the observed vendor error to the Go error
  value the operation returns;
* the vendor service (AWS Secrets Manager) is modelled as a key-value state
  (one name maps to one secret record) behaving per its documented API
  contract, so that the adapter's operations become state-passing functions;
* Go `[]byte` values are byte lists; Go `string(b)` / `[]byte(s)` conversions
  preserve bytes exactly, so payloads travel as the same list.
-/

namespace KesAws

/-- Go `[]byte` payloads: a sequence of bytes. -/
abbrev Bytes := List Nat

/-- Static AWS credentials: access key, secret key and a session token
(struct `Credentials`, secrets-manager.go lines 29-33). -/
structure Credentials where
  accessKey : String
  secretKey : String
  sessionToken : String
deriving DecidableEq

/-- Configuration for connecting to the AWS Secrets Manager
(struct `Config`, secrets-manager.go lines 37-56). -/
structure Config where
  addr : String
  region : String
  kmsKeyID : String
  login : Credentials
deriving DecidableEq

/-- How `Connect` sources credentials for the SDK client: either a static
credentials provider built from `config.Login`, or the SDK's ambient
resolution chain (environment variables, shared credentials file, EC2
instance metadata). -/
inductive CredSource where
  | staticCreds (c : Credentials)
  | ambientChain
deriving DecidableEq

/-- Embeds `Connect` lines 67-76: a static credentials provider is installed
when any of the three `Login` fields is non-empty; otherwise no provider is
installed and the SDK falls back to the ambient chain. -/
def connectCredSource (login : Credentials) : CredSource :=
  if login.accessKey != "" || login.secretKey != "" || login.sessionToken != "" then
    CredSource.staticCreds login
  else
    CredSource.ambientChain

/-- The endpoint parameters the SDK passes to an `EndpointResolverV2`:
the region, and the optional endpoint override that the SDK populates only
from the (deprecated) `BaseEndpoint` option, which `Connect` never sets. -/
structure EndpointParameters where
  region : String
  endpoint : Option String
deriving DecidableEq

/-- The default regional Secrets Manager endpoint derived from a region. -/
def defaultRegionalEndpoint (region : String) : String :=
  "https://secretsmanager." ++ region ++ ".amazonaws.com"

/-- The SDK's default `EndpointResolverV2`: honours the `Endpoint` parameter
when set (only ever populated from `BaseEndpoint`), otherwise derives the
default regional endpoint from the region. -/
def defaultResolveEndpointV2 (params : EndpointParameters) : String :=
  match params.endpoint with
  | some e => e
  | none => defaultRegionalEndpoint params.region

/-- The resolver `Connect` installs for a custom endpoint
(struct `customEndpointResolver`, secrets-manager.go lines 114-116). -/
structure CustomEndpointResolver where
  endpoint : String
deriving DecidableEq

/-- Embeds `customEndpointResolver.ResolveEndpoint`, secrets-manager.go lines
118-122: the body delegates to `secretsmanager.NewDefaultEndpointResolverV2()`
and never reads the receiver's `endpoint` field. -/
def CustomEndpointResolver.resolveEndpoint (_r : CustomEndpointResolver)
    (params : EndpointParameters) : String :=
  defaultResolveEndpointV2 params

/-- Embeds `Connect` lines 94-100: a `customEndpointResolver` holding
`"https://" + cfg.Addr` is installed as `EndpointResolverV2` exactly when
`cfg.Addr` is non-empty. -/
def connectResolver (cfg : Config) : Option CustomEndpointResolver :=
  if cfg.addr != "" then some ⟨"https://" ++ cfg.addr⟩ else none

/-- The endpoint a data-plane client call of a store built by `Connect cfg`
resolves to: the installed resolver is consulted when present, otherwise the
SDK's default resolver runs. `Connect` never sets `BaseEndpoint`, so the
`Endpoint` parameter is `none`. -/
def clientCallEndpoint (cfg : Config) : String :=
  match connectResolver cfg with
  | some r => r.resolveEndpoint ⟨cfg.region, none⟩
  | none => defaultResolveEndpointV2 ⟨cfg.region, none⟩

/-- Embeds `Status` lines 136-139: the probe URL is built from `Addr` when
set, else from the region. -/
def statusProbeEndpoint (cfg : Config) : String :=
  if cfg.addr = "" then defaultRegionalEndpoint cfg.region
  else "https://" ++ cfg.addr

/-- A failed vendor call's Go error value, observed through exactly the
predicates the adapter applies to it: `errors.Is` against the two context
sentinels, `errors.As` against the typed exceptions
`*types.ResourceExistsException`, `*types.ResourceNotFoundException`,
`*types.DecryptionFailure`, `errors.As` against `smithy.APIError` (recorded
as the `ErrorCode()` string when it matches), and the `Error()` message. -/
structure AWSError where
  isCtxCanceled : Bool
  isCtxDeadline : Bool
  isResourceExists : Bool
  isResourceNotFound : Bool
  isDecryptionFailure : Bool
  apiErrorCode : Option String
  msg : String
deriving DecidableEq

/-- The Go error values an adapter operation can return to its caller. -/
inductive GoErr where
  /-- the vendor error value, returned to the caller unchanged -/
  | awsRaw (e : AWSError)
  /-- the sentinel `kesdk.ErrKeyExists` -/
  | keyExists
  /-- the sentinel `kesdk.ErrKeyNotFound` -/
  | keyNotFound
  /-- a fresh error built by `fmt.Errorf`, carrying only its message -/
  | errorf (msg : String)
  /-- `&keystore.ErrUnreachable\x7bErr: err\x7d` wrapping the probe failure -/
  | unreachable (cause : AWSError)
deriving DecidableEq

/-- Whether a returned error is a `fmt.Errorf`-wrapped diagnostic. -/
def GoErr.isErrorf : GoErr → Bool
  | GoErr.errorf _ => true
  | _ => false

/-- A single-quote character, used by the `fmt.Errorf` format strings. -/
def sq : String := String.singleton (Char.ofNat 39)

/-- Embeds `Create`'s error handling, secrets-manager.go lines 175-186:
context errors pass through unchanged, `ResourceExistsException` maps to
`kesdk.ErrKeyExists`, everything else is wrapped by `fmt.Errorf`. -/
def createErrMap (name : String) (e : AWSError) : GoErr :=
  if e.isCtxCanceled || e.isCtxDeadline then GoErr.awsRaw e
  else if e.isResourceExists then GoErr.keyExists
  else GoErr.errorf ("aws: failed to create " ++ sq ++ name ++ sq ++ ": " ++ e.msg)

/-- Embeds `Get`'s error handling, secrets-manager.go lines 207-233:
context errors pass through unchanged; `DecryptionFailure` (typed or by API
error code) is wrapped as a cannot-access diagnostic;
`ResourceNotFoundException` (typed or by API error code) maps to
`kesdk.ErrKeyNotFound`; everything else is wrapped by `fmt.Errorf`. -/
def getErrMap (name : String) (e : AWSError) : GoErr :=
  if e.isCtxCanceled || e.isCtxDeadline then GoErr.awsRaw e
  else if e.isDecryptionFailure then
    GoErr.errorf ("aws: cannot access " ++ sq ++ name ++ sq ++ ": " ++ e.msg)
  else if e.isResourceNotFound then GoErr.keyNotFound
  else if e.apiErrorCode = some "DecryptionFailureException" then
    GoErr.errorf ("aws: cannot access " ++ sq ++ name ++ sq ++ ": " ++ e.msg)
  else if e.apiErrorCode = some "ResourceNotFoundException" then GoErr.keyNotFound
  else GoErr.errorf ("aws: failed to read " ++ sq ++ name ++ sq ++ ": " ++ e.msg)

/-- Embeds `Delete`'s error handling, secrets-manager.go lines 259-278:
context errors pass through unchanged; `ResourceNotFoundException` (typed or
by API error code) maps to `kesdk.ErrKeyNotFound`; everything else is
wrapped by `fmt.Errorf`. -/
def deleteErrMap (name : String) (e : AWSError) : GoErr :=
  if e.isCtxCanceled || e.isCtxDeadline then GoErr.awsRaw e
  else if e.isResourceNotFound then GoErr.keyNotFound
  else if e.apiErrorCode = some "ResourceNotFoundException" then GoErr.keyNotFound
  else GoErr.errorf ("aws: failed to delete " ++ sq ++ name ++ sq ++ ": " ++ e.msg)

/-- Embeds `List`'s page-fetch error path, secrets-manager.go lines 300-303:
`return nil, "", err` hands the paginator's error to the caller as-is,
applying no translation and no wrapping. -/
def listErrMap (e : AWSError) : GoErr := GoErr.awsRaw e

/-- Embeds `Status`'s probe-failure path, secrets-manager.go lines 147-150:
every error of the HTTP probe is wrapped into
`&keystore.ErrUnreachable\x7bErr: err\x7d`. -/
def statusOnProbeError (e : AWSError) : GoErr := GoErr.unreachable e

/-- A secret record held by the vendor: the two mutually exclusive payload
representations `SecretString` and `SecretBinary`. -/
structure SecretRecord where
  secretString : Option Bytes
  secretBinary : Option Bytes
deriving DecidableEq

/-- The vendor's state: one name maps to one secret record. -/
abbrev Vault := List (String × SecretRecord)

/-- Lookup of a name in the vendor state. -/
def vaultFind : Vault → String → Option SecretRecord
  | [], _ => none
  | (k, r) :: rest, name => if k = name then some r else vaultFind rest name

/-- Removal of a name from the vendor state. -/
def vaultErase : Vault → String → Vault
  | [], _ => []
  | (k, r) :: rest, name =>
    if k = name then vaultErase rest name else (k, r) :: vaultErase rest name

/-- The `CreateSecretInput` the adapter builds: name, the string payload, and
the optional KMS key id. -/
structure CreateSecretInput where
  name : String
  secretString : Option Bytes
  kmsKeyId : Option String
deriving DecidableEq

/-- Embeds `Create` lines 166-172: the payload is sent as
`SecretString: aws.String(string(value))` (Go's `[]byte` to `string`
conversion preserves the bytes exactly), and `KmsKeyId` is set iff
`config.KMSKeyID` is non-empty. -/
def mkCreateInput (cfg : Config) (name : String) (value : Bytes) : CreateSecretInput :=
  { name := name
    secretString := some value
    kmsKeyId := if cfg.kmsKeyID != "" then some cfg.kmsKeyID else none }

/-- The `DeleteSecretInput` the adapter builds: the secret id and the
force-delete flag. -/
structure DeleteSecretInput where
  secretId : String
  forceDeleteWithoutRecovery : Option Bool
deriving DecidableEq

/-- Embeds `Delete` lines 255-258: `ForceDeleteWithoutRecovery` is always
`aws.Bool(true)`. -/
def mkDeleteInput (name : String) : DeleteSecretInput :=
  { secretId := name, forceDeleteWithoutRecovery := some true }

/-- The vendor error raised by `CreateSecret` on a name collision:
`errors.As` recognises it as `*types.ResourceExistsException`. -/
def resourceExistsError : AWSError :=
  { isCtxCanceled := false, isCtxDeadline := false, isResourceExists := true
    isResourceNotFound := false, isDecryptionFailure := false
    apiErrorCode := some "ResourceExistsException"
    msg := "ResourceExistsException: A resource with the ID you requested already exists." }

/-- The vendor error raised on an absent name: `errors.As` recognises it as
`*types.ResourceNotFoundException`. -/
def resourceNotFoundError : AWSError :=
  { isCtxCanceled := false, isCtxDeadline := false, isResourceExists := false
    isResourceNotFound := true, isDecryptionFailure := false
    apiErrorCode := some "ResourceNotFoundException"
    msg := "ResourceNotFoundException: Secrets Manager can not find the specified secret." }

/-- Model of the vendor `CreateSecret` call, per the AWS API contract the
adapter relies on (secrets-manager.go lines 158-160): it fails with
`ResourceExistsException` iff an entry of that name exists, and otherwise
stores the request's payload under the name. -/
def vendorCreate (st : Vault) (input : CreateSecretInput) : Vault × Option AWSError :=
  match vaultFind st input.name with
  | some _ => (st, some resourceExistsError)
  | none => ((input.name, ⟨input.secretString, none⟩) :: st, none)

/-- Model of the vendor `GetSecretValue` call, per the AWS API contract the
adapter relies on (secrets-manager.go lines 236-242): it fails with
`ResourceNotFoundException` iff the name is absent, and otherwise returns the
stored record, of which exactly one payload representation is populated. -/
def vendorGet (st : Vault) (secretId : String) : Except AWSError SecretRecord :=
  match vaultFind st secretId with
  | some r => Except.ok r
  | none => Except.error resourceNotFoundError

/-- Model of the vendor `DeleteSecret` call, per the AWS API contract the
adapter relies on: it fails with `ResourceNotFoundException` iff the name is
absent; with `ForceDeleteWithoutRecovery` set the entry is removed
immediately and irrecoverably, while without it the deletion is only
scheduled after a recovery window, during which the entry lingers. -/
def vendorDelete (st : Vault) (input : DeleteSecretInput) : Vault × Option AWSError :=
  match vaultFind st input.secretId with
  | none => (st, some resourceNotFoundError)
  | some _ =>
    if input.forceDeleteWithoutRecovery = some true then
      (vaultErase st input.secretId, none)
    else
      (st, none)

/-- Embeds `Store.Create` (secrets-manager.go lines 165-188) against the
vendor model: build the input, issue the call, translate a failure. -/
def storeCreate (cfg : Config) (st : Vault) (name : String) (value : Bytes) :
    Vault × Option GoErr :=
  match vendorCreate st (mkCreateInput cfg name value) with
  | (st2, none) => (st2, none)
  | (st2, some e) => (st2, some (createErrMap name e))

/-- Embeds `Store.Set` (secrets-manager.go lines 197-199): the body is
`return s.Create(ctx, name, value)`. -/
def storeSet (cfg : Config) (st : Vault) (name : String) (value : Bytes) :
    Vault × Option GoErr :=
  storeCreate cfg st name value

/-- Embeds the payload extraction of `Get`, secrets-manager.go lines 243-248:
`SecretString` is decoded back to bytes when present (Go's `string` to
`[]byte` conversion preserves the bytes exactly), otherwise the
`SecretBinary` bytes are returned (a nil slice when absent). -/
def extractValue (r : SecretRecord) : Bytes :=
  match r.secretString with
  | some s => s
  | none =>
    match r.secretBinary with
    | some b => b
    | none => []

/-- Embeds `Store.Get` (secrets-manager.go lines 203-250) against the vendor
model: issue the call, translate a failure, extract the payload. -/
def storeGet (st : Vault) (name : String) : Except GoErr Bytes :=
  match vendorGet st name with
  | Except.ok r => Except.ok (extractValue r)
  | Except.error e => Except.error (getErrMap name e)

/-- Embeds `Store.Delete` (secrets-manager.go lines 254-280) against the
vendor model: build the input, issue the call, translate a failure. -/
def storeDelete (st : Vault) (name : String) : Vault × Option GoErr :=
  match vendorDelete st (mkDeleteInput name) with
  | (st2, none) => (st2, none)
  | (st2, some e) => (st2, some (deleteErrMap name e))

/-- Embeds `List`'s page loop, secrets-manager.go lines 299-310: across all
pages, in order, the non-nil secret names are collected. -/
def collectNames (pages : List (List (Option String))) : List String :=
  (pages.map (fun page => page.filterMap id)).flatten

/-- Go `strings.HasPrefix s pfx`: byte-wise test that `pfx` is an initial
segment of `s`. -/
def strStartsWith (pfx s : String) : Bool :=
  pfx.data.isPrefixOf s.data

/-- Boolean lexicographic comparison of character lists. -/
def lexLeChars : List Char → List Char → Bool
  | [], _ => true
  | _ :: _, [] => false
  | a :: as, b :: bs =>
    if a < b then true
    else if b < a then false
    else lexLeChars as bs

/-- Lexicographic order on strings, via their character lists. -/
def strLe (a b : String) : Prop := lexLeChars a.data b.data = true

instance : DecidableRel strLe := fun a b => by unfold strLe; infer_instance

/-- Modelled from the spec: `keystore.List` (package `internal/keystore`) is
called by `Store.List` (secrets-manager.go line 312) but its source is not
part of this fragment. Per the spec, the collected names are filtered
client-side to those starting with `pfx` (listing is lexicographic by name),
at most `n` of them are returned (all of them when `n` is negative), and the
continuation cursor — the next name from which the listing resumes — is the
empty string exactly when no further matching names remain. -/
def keystoreList (names : List String) (pfx : String) (n : Int) : List String × String :=
  let matching := (List.insertionSort strLe names).filter (fun s => strStartsWith pfx s)
  if n < 0 then (matching, "")
  else
    match matching.drop n.toNat with
    | [] => (matching, "")
    | next :: _ => (matching.take n.toNat, next)

/-- Embeds `Store.List`'s success path (secrets-manager.go lines 294-313)
against a vendor listing delivered as pages of optional names: exhaust the
pagination, collect the non-nil names, and hand them to `keystore.List`. -/
def storeList (pages : List (List (Option String))) (pfx : String) (n : Int) :
    List String × String :=
  keystoreList (collectNames pages) pfx n

/-- A config with a non-empty custom `Addr`, used to evaluate the endpoint
resolution concretely. -/
def customAddrConfig : Config :=
  { addr := "localhost:7171", region := "us-east-1", kmsKeyID := ""
    login := ⟨"", "", ""⟩ }

/-- C1: evaluated at a config with non-empty `Addr`, `Connect` does install a
resolver holding `https://` + `config.Addr`, but that resolver's
`ResolveEndpoint` delegates to the default resolver and never reads its
stored endpoint, so a client call of the returned store resolves to the
default regional endpoint derived from `config.Region`, not to the custom
endpoint. -/
theorem client_call_ignores_custom_addr :
    connectResolver customAddrConfig = some ⟨"https://localhost:7171"⟩ ∧
    clientCallEndpoint customAddrConfig = "https://secretsmanager.us-east-1.amazonaws.com" ∧
    clientCallEndpoint customAddrConfig ≠ "https://localhost:7171" := by
  refine ⟨rfl, rfl, ?_⟩
  decide

/-- C10: `Connect` uses a static credentials provider exactly when at least
one of the three fields of `config.Login` is non-empty, and falls back to the
ambient credential-resolution chain exactly when all three are empty. -/
theorem connect_static_credentials_rule (login : Credentials) :
    (connectCredSource login = CredSource.staticCreds login ↔
      (login.accessKey ≠ "" ∨ login.secretKey ≠ "" ∨ login.sessionToken ≠ "")) ∧
    (connectCredSource login = CredSource.ambientChain ↔
      (login.accessKey = "" ∧ login.secretKey = "" ∧ login.sessionToken = "")) := by
  unfold connectCredSource
  by_cases h1 : login.accessKey = "" <;> by_cases h2 : login.secretKey = "" <;>
    by_cases h3 : login.sessionToken = "" <;>
      simp [h1, h2, h3]

/-- C10 witness: a partially filled triple (access key alone) yields static
credentials; the all-empty triple yields the ambient chain. -/
theorem connect_static_credentials_rule_witness :
    connectCredSource ⟨"AKIA123", "", ""⟩ = CredSource.staticCreds ⟨"AKIA123", "", ""⟩ ∧
    connectCredSource ⟨"", "", ""⟩ = CredSource.ambientChain :=
  ⟨((connect_static_credentials_rule ⟨"AKIA123", "", ""⟩).1).mpr (Or.inl (by decide)),
   ((connect_static_credentials_rule ⟨"", "", ""⟩).2).mpr ⟨rfl, rfl, rfl⟩⟩

/-- C9: `Set` is extensionally equal to `Create`: on every config, vault
state, name and value it returns the same result and leaves the same state. -/
theorem set_eq_create (cfg : Config) (st : Vault) (name : String) (value : Bytes) :
    storeSet cfg st name value = storeCreate cfg st name value := rfl

/-- C9 witness: the agreement evaluated at a concrete call. -/
theorem set_eq_create_witness :
    storeSet customAddrConfig [] "db-key-1" [1, 2] =
      storeCreate customAddrConfig [] "db-key-1" [1, 2] :=
  set_eq_create customAddrConfig [] "db-key-1" [1, 2]

/-- C7: when exactly one of the two payload representations of a successful
`Get` response is populated, the extraction returns the bytes of the
populated one, losing and altering nothing. -/
theorem get_extracts_populated_representation (r : SecretRecord) :
    (∀ s, r.secretString = some s → r.secretBinary = none → extractValue r = s) ∧
    (∀ b, r.secretString = none → r.secretBinary = some b → extractValue r = b) := by
  constructor
  · intro s hs _
    simp [extractValue, hs]
  · intro b hs hb
    simp [extractValue, hs, hb]

/-- C7 witness: concrete responses with exactly one representation set. -/
theorem get_extracts_populated_representation_witness :
    extractValue ⟨some [104, 105], none⟩ = [104, 105] ∧
    extractValue ⟨none, some [1, 2, 255]⟩ = [1, 2, 255] :=
  ⟨(get_extracts_populated_representation ⟨some [104, 105], none⟩).1 [104, 105] rfl rfl,
   (get_extracts_populated_representation ⟨none, some [1, 2, 255]⟩).2 [1, 2, 255] rfl rfl⟩

/-- C2 (amended): for `Create` (and `Set`, whose body delegates to it),
`Get`, `Delete` and `List`, a vendor failure that `errors.Is` recognises as
`context.Canceled` or `context.DeadlineExceeded` is returned to the caller
unchanged — neither wrapped nor reclassified. (`Status` is excluded: it
wraps every probe failure, context errors included, into the unreachable
classification.) -/
theorem context_errors_passed_through (name : String) (e : AWSError)
    (h : e.isCtxCanceled = true ∨ e.isCtxDeadline = true) :
    createErrMap name e = GoErr.awsRaw e ∧
    getErrMap name e = GoErr.awsRaw e ∧
    deleteErrMap name e = GoErr.awsRaw e ∧
    listErrMap e = GoErr.awsRaw e := by
  unfold createErrMap getErrMap deleteErrMap listErrMap
  rcases h with h | h <;> simp [h]

/-- The error the HTTP probe of `Status` reports when the caller's context is
canceled mid-probe. -/
def canceledProbeError : AWSError :=
  { isCtxCanceled := true, isCtxDeadline := false, isResourceExists := false
    isResourceNotFound := false, isDecryptionFailure := false
    apiErrorCode := none
    msg := "Get https://secretsmanager.us-east-1.amazonaws.com: context canceled" }

/-- C2 counterexample: `Status` does not return a canceled-context probe
failure unchanged — it wraps it into the unreachable classification. -/
theorem status_reclassifies_context_error :
    canceledProbeError.isCtxCanceled = true ∧
    statusOnProbeError canceledProbeError = GoErr.unreachable canceledProbeError ∧
    statusOnProbeError canceledProbeError ≠ GoErr.awsRaw canceledProbeError := by
  refine ⟨rfl, rfl, ?_⟩
  decide

/-- C2 witness: the pass-through evaluated on a concrete canceled-context
vendor failure. -/
theorem context_errors_passed_through_witness :
    (canceledProbeError.isCtxCanceled = true ∨ canceledProbeError.isCtxDeadline = true) ∧
    (createErrMap "key-1" canceledProbeError = GoErr.awsRaw canceledProbeError ∧
     getErrMap "key-1" canceledProbeError = GoErr.awsRaw canceledProbeError ∧
     deleteErrMap "key-1" canceledProbeError = GoErr.awsRaw canceledProbeError ∧
     listErrMap canceledProbeError = GoErr.awsRaw canceledProbeError) :=
  ⟨Or.inl rfl, context_errors_passed_through "key-1" canceledProbeError (Or.inl rfl)⟩

/-- C3 (amended): for `Create` (and `Set`), `Get` and `Delete`, a vendor
failure matching none of the recognised kinds is returned wrapped with the
operation's name, the entry name and the underlying cause message; `List`,
however, returns a failed page fetch's error to the caller bare. -/
theorem unknown_errors_wrapped (name : String) (e : AWSError)
    (hc : e.isCtxCanceled = false) (hd : e.isCtxDeadline = false)
    (hre : e.isResourceExists = false) (hrn : e.isResourceNotFound = false)
    (hdf : e.isDecryptionFailure = false)
    (ha1 : e.apiErrorCode ≠ some "DecryptionFailureException")
    (ha2 : e.apiErrorCode ≠ some "ResourceNotFoundException") :
    createErrMap name e =
      GoErr.errorf ("aws: failed to create " ++ sq ++ name ++ sq ++ ": " ++ e.msg) ∧
    getErrMap name e =
      GoErr.errorf ("aws: failed to read " ++ sq ++ name ++ sq ++ ": " ++ e.msg) ∧
    deleteErrMap name e =
      GoErr.errorf ("aws: failed to delete " ++ sq ++ name ++ sq ++ ": " ++ e.msg) := by
  unfold createErrMap getErrMap deleteErrMap
  simp [hc, hd, hre, hrn, hdf, ha1, ha2]

/-- A vendor failure matching none of the kinds the adapter recognises. -/
def unknownVendorError : AWSError :=
  { isCtxCanceled := false, isCtxDeadline := false, isResourceExists := false
    isResourceNotFound := false, isDecryptionFailure := false
    apiErrorCode := some "ThrottlingException"
    msg := "ThrottlingException: Rate exceeded" }

/-- C3 counterexample: `List` returns an unrecognised page-fetch failure to
the caller bare — the raw vendor error value, not a wrapped diagnostic. -/
theorem list_page_error_returned_bare :
    listErrMap unknownVendorError = GoErr.awsRaw unknownVendorError ∧
    (listErrMap unknownVendorError).isErrorf = false :=
  ⟨rfl, rfl⟩

/-- C3 witness: the wrapping evaluated on a concrete unrecognised vendor
failure. -/
theorem unknown_errors_wrapped_witness :
    unknownVendorError.isCtxCanceled = false ∧
    (createErrMap "key-1" unknownVendorError =
       GoErr.errorf ("aws: failed to create " ++ sq ++ "key-1" ++ sq ++ ": " ++
         unknownVendorError.msg) ∧
     getErrMap "key-1" unknownVendorError =
       GoErr.errorf ("aws: failed to read " ++ sq ++ "key-1" ++ sq ++ ": " ++
         unknownVendorError.msg) ∧
     deleteErrMap "key-1" unknownVendorError =
       GoErr.errorf ("aws: failed to delete " ++ sq ++ "key-1" ++ sq ++ ": " ++
         unknownVendorError.msg)) :=
  ⟨rfl, unknown_errors_wrapped "key-1" unknownVendorError rfl rfl rfl rfl rfl
    (by decide) (by decide)⟩

theorem vaultFind_cons_self (name : String) (r : SecretRecord) (st : Vault) :
    vaultFind ((name, r) :: st) name = some r := by
  simp [vaultFind]

theorem vaultFind_erase_self (st : Vault) (name : String) :
    vaultFind (vaultErase st name) name = none := by
  induction st with
  | nil => rfl
  | cons p rest ih =>
    obtain ⟨k, r⟩ := p
    by_cases h : k = name
    · simp [vaultErase, h, ih]
    · simp [vaultErase, vaultFind, h, ih]

theorem deleteErrMap_notFound (name : String) :
    deleteErrMap name resourceNotFoundError = GoErr.keyNotFound := rfl

/-- C4: on a name with no existing entry, `Create` succeeds, and a subsequent
`Get` of that name returns exactly the created bytes — the payload travels
through the text representation and back without loss, for arbitrary byte
values. -/
theorem create_get_roundtrip (cfg : Config) (st : Vault) (name : String) (v : Bytes)
    (h : vaultFind st name = none) :
    (storeCreate cfg st name v).2 = none ∧
    storeGet (storeCreate cfg st name v).1 name = Except.ok v := by
  have hcr : storeCreate cfg st name v = ((name, ⟨some v, none⟩) :: st, none) := by
    unfold storeCreate vendorCreate mkCreateInput
    simp [h]
  refine ⟨by rw [hcr], ?_⟩
  rw [hcr]
  unfold storeGet vendorGet
  rw [vaultFind_cons_self]
  rfl

/-- C4 witness: a concrete round trip through an empty vault, with a payload
containing non-text bytes. -/
theorem create_get_roundtrip_witness :
    vaultFind ([] : Vault) "db-key-1" = none ∧
    ((storeCreate customAddrConfig [] "db-key-1" [115, 0, 255]).2 = none ∧
     storeGet (storeCreate customAddrConfig [] "db-key-1" [115, 0, 255]).1 "db-key-1" =
       Except.ok [115, 0, 255]) :=
  ⟨rfl, create_get_roundtrip customAddrConfig [] "db-key-1" [115, 0, 255] rfl⟩

/-- C5: `Create` on a name that already has an entry returns the
already-exists sentinel and leaves the vault state — the existing entry's
value included — unmodified. -/
theorem create_existing_fails (cfg : Config) (st : Vault) (name : String) (v : Bytes)
    (r : SecretRecord) (h : vaultFind st name = some r) :
    storeCreate cfg st name v = (st, some GoErr.keyExists) := by
  unfold storeCreate vendorCreate mkCreateInput
  simp [h]
  rfl

/-- C5 witness: a concrete second create on an occupied name. -/
theorem create_existing_fails_witness :
    vaultFind [("db-key-1", ⟨some [1], none⟩)] "db-key-1" = some ⟨some [1], none⟩ ∧
    storeCreate customAddrConfig [("db-key-1", ⟨some [1], none⟩)] "db-key-1" [2] =
      ([("db-key-1", ⟨some [1], none⟩)], some GoErr.keyExists) :=
  ⟨rfl, create_existing_fails customAddrConfig [("db-key-1", ⟨some [1], none⟩)]
    "db-key-1" [2] ⟨some [1], none⟩ rfl⟩

/-- C8: `Delete` always sets the force-delete-without-recovery flag on the
vendor call; on an absent name it returns the not-found sentinel and leaves
the state unchanged; after any `Delete` the name is gone, so a repeated
`Delete` of the same name reports not-found, never success. -/
theorem delete_force_semantics (st : Vault) (name : String) :
    (mkDeleteInput name).forceDeleteWithoutRecovery = some true ∧
    (vaultFind st name = none → storeDelete st name = (st, some GoErr.keyNotFound)) ∧
    vaultFind (storeDelete st name).1 name = none ∧
    (storeDelete (storeDelete st name).1 name).2 = some GoErr.keyNotFound := by
  cases hfind : vaultFind st name with
  | none =>
    have hdel : storeDelete st name = (st, some GoErr.keyNotFound) := by
      unfold storeDelete vendorDelete mkDeleteInput
      simp [hfind, deleteErrMap_notFound]
    exact ⟨rfl, fun _ => hdel, by rw [hdel]; exact hfind, by rw [hdel, hdel]⟩
  | some r =>
    have hdel : storeDelete st name = (vaultErase st name, none) := by
      unfold storeDelete vendorDelete mkDeleteInput
      simp [hfind]
    have hfind2 : vaultFind (vaultErase st name) name = none := vaultFind_erase_self st name
    have hdel2 : storeDelete (vaultErase st name) name =
        (vaultErase st name, some GoErr.keyNotFound) := by
      unfold storeDelete vendorDelete mkDeleteInput
      simp [hfind2, deleteErrMap_notFound]
    refine ⟨rfl, fun hc => ?_, by rw [hdel]; exact hfind2, by rw [hdel, hdel2]⟩
    simp [hfind] at hc

/-- C8 witness: the flag, a delete on an empty vault, and a repeated delete
of an existing entry, all evaluated concretely. -/
theorem delete_force_semantics_witness :
    (mkDeleteInput "db-key-1").forceDeleteWithoutRecovery = some true ∧
    storeDelete ([] : Vault) "db-key-1" = ([], some GoErr.keyNotFound) ∧
    vaultFind (storeDelete [("db-key-1", ⟨some [9], none⟩)] "db-key-1").1 "db-key-1" = none ∧
    (storeDelete (storeDelete [("db-key-1", ⟨some [9], none⟩)] "db-key-1").1 "db-key-1").2 =
      some GoErr.keyNotFound :=
  ⟨(delete_force_semantics [] "db-key-1").1,
   (delete_force_semantics [] "db-key-1").2.1 rfl,
   (delete_force_semantics [("db-key-1", ⟨some [9], none⟩)] "db-key-1").2.2.1,
   (delete_force_semantics [("db-key-1", ⟨some [9], none⟩)] "db-key-1").2.2.2⟩

theorem keystoreList_neg (names : List String) (pfx : String) (n : Int) (h : n < 0) :
    keystoreList names pfx n =
      ((List.insertionSort strLe names).filter (fun s => strStartsWith pfx s), "") := by
  unfold keystoreList
  simp [h]

theorem keystoreList_nonneg_all (names : List String) (pfx : String) (n : Int)
    (h : ¬ n < 0)
    (hd : ((List.insertionSort strLe names).filter
      (fun s => strStartsWith pfx s)).drop n.toNat = []) :
    keystoreList names pfx n =
      ((List.insertionSort strLe names).filter (fun s => strStartsWith pfx s), "") := by
  unfold keystoreList
  simp [h, hd]

theorem keystoreList_nonneg_more (names : List String) (pfx : String) (n : Int)
    (h : ¬ n < 0) (next : String) (rest : List String)
    (hd : ((List.insertionSort strLe names).filter
      (fun s => strStartsWith pfx s)).drop n.toNat = next :: rest) :
    keystoreList names pfx n =
      (((List.insertionSort strLe names).filter
        (fun s => strStartsWith pfx s)).take n.toNat, next) := by
  unfold keystoreList
  simp [h, hd]

theorem keystoreList_spec (names : List String) (pfx : String) (n : Int)
    (hne : ∀ s ∈ names, s ≠ "") :
    (n < 0 → ∀ s, s ∈ (keystoreList names pfx n).1 ↔
       s ∈ names ∧ strStartsWith pfx s = true) ∧
    (0 ≤ n → ((keystoreList names pfx n).1.length ≤ n.toNat ∧
       ∀ s ∈ (keystoreList names pfx n).1, s ∈ names ∧ strStartsWith pfx s = true)) ∧
    ((keystoreList names pfx n).2 = "" ↔
       (keystoreList names pfx n).1.length =
         (names.filter (fun s => strStartsWith pfx s)).length) ∧
    (names.Nodup → (keystoreList names pfx n).1.Nodup) := by
  have hperm : (List.insertionSort strLe names).Perm names := List.perm_insertionSort _ _
  have hpermF : ((List.insertionSort strLe names).filter (fun s => strStartsWith pfx s)).Perm
      (names.filter (fun s => strStartsWith pfx s)) := hperm.filter _
  have hmem : ∀ s,
      (s ∈ (List.insertionSort strLe names).filter (fun s => strStartsWith pfx s)) ↔
      s ∈ names ∧ strStartsWith pfx s = true := by
    intro s
    rw [hpermF.mem_iff, List.mem_filter]
  have hlen : ((List.insertionSort strLe names).filter (fun s => strStartsWith pfx s)).length =
      (names.filter (fun s => strStartsWith pfx s)).length := hpermF.length_eq
  by_cases hneg : n < 0
  · have hres := keystoreList_neg names pfx n hneg
    refine ⟨fun _ s => by rw [hres]; exact hmem s,
            fun hge => absurd hneg (by omega),
            by rw [hres]; simp [hlen],
            fun hnd => by rw [hres]; exact (hperm.nodup_iff.mpr hnd).filter _⟩
  · cases hdrop : ((List.insertionSort strLe names).filter
        (fun s => strStartsWith pfx s)).drop n.toNat with
    | nil =>
      have hres := keystoreList_nonneg_all names pfx n hneg hdrop
      have hle : ((List.insertionSort strLe names).filter
          (fun s => strStartsWith pfx s)).length ≤ n.toNat :=
        List.drop_eq_nil_iff.mp hdrop
      refine ⟨fun hlt => absurd hlt hneg,
              fun _ => ⟨by rw [hres]; exact hle,
                        fun s hs => (hmem s).mp (by rw [hres] at hs; exact hs)⟩,
              by rw [hres]; simp [hlen],
              fun hnd => by rw [hres]; exact (hperm.nodup_iff.mpr hnd).filter _⟩
    | cons next rest =>
      have hres := keystoreList_nonneg_more names pfx n hneg next rest hdrop
      have hlt_len : n.toNat < ((List.insertionSort strLe names).filter
          (fun s => strStartsWith pfx s)).length := by
        by_contra hc
        push_neg at hc
        rw [List.drop_eq_nil_iff.mpr hc] at hdrop
        cases hdrop
      have hnext_mem : next ∈ (List.insertionSort strLe names).filter
          (fun s => strStartsWith pfx s) := by
        have hmemd : next ∈ ((List.insertionSort strLe names).filter
            (fun s => strStartsWith pfx s)).drop n.toNat := by
          rw [hdrop]
          exact List.mem_cons_self _ _
        exact List.drop_subset _ _ hmemd
      have hnext_ne : next ≠ "" := hne next ((hmem next).mp hnext_mem).1
      refine ⟨fun hlt => absurd hlt hneg,
              fun _ => ⟨by rw [hres]; rw [List.length_take]; omega,
                        fun s hs => (hmem s).mp
                          (List.take_subset _ _ (by rw [hres] at hs; exact hs))⟩,
              ?_,
              fun hnd => by
                rw [hres]
                exact ((hperm.nodup_iff.mpr hnd).filter _).sublist (List.take_sublist _ _)⟩
      rw [hres]
      constructor
      · intro hq
        exact absurd hq hnext_ne
      · intro hq
        rw [List.length_take] at hq
        omega

/-- C6: `List` exhausts the vendor pagination and applies the spec-modelled
`keystore.List`: with a negative count it returns exactly the collected names
starting with the prefix, with a non-negative count at most that many of
them; the continuation cursor is empty exactly when no further matching
names remain beyond the ones returned; the result depends only on the
flattened name sequence, not on the vendor's page boundaries; and distinct
created names stay distinct in the result. -/
theorem list_contract (pages : List (List (Option String))) (pfx : String) (n : Int)
    (hne : ∀ s ∈ collectNames pages, s ≠ "") :
    (n < 0 → ∀ s, s ∈ (storeList pages pfx n).1 ↔
       s ∈ collectNames pages ∧ strStartsWith pfx s = true) ∧
    (0 ≤ n → ((storeList pages pfx n).1.length ≤ n.toNat ∧
       ∀ s ∈ (storeList pages pfx n).1,
         s ∈ collectNames pages ∧ strStartsWith pfx s = true)) ∧
    ((storeList pages pfx n).2 = "" ↔
       (storeList pages pfx n).1.length =
         ((collectNames pages).filter (fun s => strStartsWith pfx s)).length) ∧
    ((collectNames pages).Nodup → (storeList pages pfx n).1.Nodup) ∧
    (∀ pages2, collectNames pages2 = collectNames pages →
       storeList pages2 pfx n = storeList pages pfx n) := by
  have h := keystoreList_spec (collectNames pages) pfx n hne
  refine ⟨h.1, h.2.1, h.2.2.1, h.2.2.2, fun pages2 h2 => ?_⟩
  unfold storeList
  rw [h2]

/-- C6 witness: three names delivered across two vendor pages with a nil
entry, listed with prefix `db-` and count 1: at most one name comes back and
the cursor is non-empty because matches remain. -/
theorem list_contract_witness :
    (storeList [[some "db-a", none, some "db-c"], [some "db-b"]] "db-" 1).1.length ≤
      (1 : Int).toNat ∧
    ((storeList [[some "db-a", none, some "db-c"], [some "db-b"]] "db-" 1).2 = "" ↔
      (storeList [[some "db-a", none, some "db-c"], [some "db-b"]] "db-" 1).1.length =
        ((collectNames [[some "db-a", none, some "db-c"], [some "db-b"]]).filter
          (fun s => strStartsWith "db-" s)).length) :=
  ⟨((list_contract [[some "db-a", none, some "db-c"], [some "db-b"]] "db-" 1
      (by decide)).2.1 (by decide)).1,
   (list_contract [[some "db-a", none, some "db-c"], [some "db-b"]] "db-" 1
      (by decide)).2.2.1⟩

end KesAws
